import Mathlib

/-!
Formal model of the ORF→JPG batch converter (`src/orf.py`).

The core of the program is `ConversionThread.run` (lines 26–69): a sequential
loop over a list of source paths that, per item, logs a started message,
decodes the RAW file (`rawpy.imread` / `postprocess`), builds the output path
from the source stem plus `.jpg`, saves via `imageio.imsave(..., quality=...)`,
optionally deletes the original, and logs a success message; any exception in
that per-item block is caught and logged as an error message.  After each
iteration the thread emits `int((i + 1) / total_files * 100)` as progress.
After the loop it emits `finished_signal(True)` and then a summary log line.
Cancellation (`stop()`) clears `is_running`, which the loop checks at the top
of each iteration and reacts to with `break`.

The embedding:
  * external effects (decode, save, delete) are driven by a per-item oracle
    `ItemEnv` saying which of them succeed, mirroring the `try`/`except`
    structure of the source;
  * every `pyqtSignal` emission becomes one `Event`; the payload of a log
    event is the variable part the source formats into the message;
  * filesystem writes/deletes become `FsAction`s tagged with the item index,
    so that overwriting and delete ordering are observable;
  * the progress expression `int((i + 1) / total_files * 100)` is modelled by
    exact natural division `(i + 1) * 100 / total`, the exact-arithmetic value
    of the same expression (IEEE double rounding can differ from the exact
    floor by one in rare cases, but monotonicity, the 0..100 range and the
    value 100 at `i + 1 = total` are unaffected);
  * `is_running` is modelled as an oracle `running : Nat → Bool`, the value
    the flag has when iteration `i` reads it (the loop stops at the first
    `false`, matching `break`).

`ORFConverterApp.start_conversion` (lines 236–255) is modelled by
`startConversion`: it refuses an empty file list (message box, no thread) and
otherwise constructs a `ConversionThread` whose `output_dir` is the chosen
folder, or `os.path.dirname(self.file_list[0])` when none was chosen.
-/

/-- Characters after the last occurrence of `sep` (the whole list when `sep`
is absent); `os.path.basename` for `sep = '/'`. -/
def afterLast (sep : Char) : List Char → List Char
  | [] => []
  | c :: cs =>
    if cs.contains sep then afterLast sep cs
    else if c = sep then cs
    else c :: cs

/-- Characters strictly before the last occurrence of `sep` (empty when `sep`
is absent); `os.path.dirname` for `sep = '/'`. -/
def beforeLast (sep : Char) : List Char → List Char
  | [] => []
  | c :: cs => if cs.contains sep then c :: beforeLast sep cs else []

/-- Index of the last occurrence of `c`, as in Python's `str.rfind`. -/
def rfindIdx (c : Char) : List Char → Option Nat
  | [] => none
  | x :: xs =>
    match rfindIdx c xs with
    | some i => some (i + 1)
    | none => if x = c then some 0 else none

/-- `pathlib.PurePath.stem` applied to a final path component: drop the part
from the last `'.'` on, but only when that dot is neither the first nor the
last character of the name. -/
def stemChars (name : List Char) : List Char :=
  match rfindIdx '.' name with
  | none => name
  | some i => if 0 < i ∧ i < name.length - 1 then name.take i else name

/-- `os.path.basename`. -/
def basenameStr (p : String) : String := String.mk (afterLast '/' p.data)

/-- `os.path.dirname`. -/
def dirnameStr (p : String) : String := String.mk (beforeLast '/' p.data)

/-- `Path(p).stem`: base name of `p` without its extension. -/
def stemStr (p : String) : String := String.mk (stemChars (afterLast '/' p.data))

/-- Does the string start with `'/'` (Python `s.startswith('/')`)? -/
def headIsSlash (s : String) : Bool :=
  match s.data with
  | [] => false
  | c :: _ => c = '/'

/-- Does the string end with `'/'` (Python `s.endswith('/')`)? -/
def lastIsSlash (s : String) : Bool :=
  match s.data.getLast? with
  | some c => c = '/'
  | none => false

/-- `os.path.join` for one directory and one relative file name. -/
def joinPath (d f : String) : String :=
  if headIsSlash f then f
  else if d = "" then f
  else if lastIsSlash d then d ++ f
  else d ++ "/" ++ f

/-- One emission on one of the thread's signals (`log_message`, `progress`,
`finished_signal`).  Log events carry the variable part of the message the
source formats. -/
inductive Event
  /-- `log_message:  "Конвертация: {basename}"` (line 36). -/
  | logStarted (name : String)
  /-- `log_message:  "✅ Успешно: {output_filename}"` (line 55). -/
  | logSuccess (filename : String)
  /-- `log_message:  "❌ Ошибка {basename}: …"` (line 58). -/
  | logError (name : String)
  /-- `log_message:  "Удален оригинал: {basename}"` (line 53). -/
  | logDeleted (name : String)
  /-- `progress.emit(int((i + 1) / total_files * 100))` (line 62). -/
  | progress (percent : Nat)
  /-- `finished_signal.emit(..)` (line 64). -/
  | finished (ok : Bool)
  /-- `log_message:  "Конвертация завершена! Успешно: {successful}/{total_files}"` (line 65). -/
  | logSummary (successful total : Nat)
deriving DecidableEq

/-- A filesystem effect of the run, tagged with the item index on whose
iteration it happened. -/
inductive FsAction
  /-- `imageio.imsave(output_path, rgb, quality=self.quality)` (line 47). -/
  | write (idx : Nat) (path : String) (quality : Nat)
  /-- `os.remove(file_path)` (line 52). -/
  | delete (idx : Nat) (path : String)
deriving DecidableEq

/-- Oracle for the three fallible external operations of one item:
decode (`rawpy.imread` / `postprocess`), save (`imageio.imsave`, covering
encode and write), delete (`os.remove`). -/
structure ItemEnv where
  decodeOk : Bool
  saveOk : Bool
  deleteOk : Bool
deriving DecidableEq

/-- What one iteration of the loop body produced: its emitted events, the
amount added to `successful` (0 or 1), and its filesystem actions. -/
structure ItemResult where
  events : List Event
  inc : Nat
  fs : List FsAction
deriving DecidableEq

/-- Accumulated outcome of the `for` loop: events, the final value of
`successful`, and the filesystem actions in order. -/
structure LoopResult where
  events : List Event
  succ : Nat
  fs : List FsAction
deriving DecidableEq

/-- Events, `successful`-increment and filesystem actions of one iteration of
the loop body of `ConversionThread.run` (lines 35–58): the `try` block logs
the started message, decodes, saves to `join(output_dir, stem + ".jpg")`,
increments `successful`, optionally removes the original (logging the
deletion), and logs success; any failing step jumps to the `except` handler,
which logs the error message. -/
def processItem (outputDir : String) (quality : Nat) (deleteOriginal : Bool)
    (path : String) (idx : Nat) (e : ItemEnv) : ItemResult :=
  let started := Event.logStarted (basenameStr path)
  if e.decodeOk then
    let outputFilename := stemStr path ++ ".jpg"
    let outputPath := joinPath outputDir outputFilename
    if e.saveOk then
      if deleteOriginal then
        if e.deleteOk then
          ⟨[started, Event.logDeleted (basenameStr path), Event.logSuccess outputFilename],
            1, [FsAction.write idx outputPath quality, FsAction.delete idx path]⟩
        else
          ⟨[started, Event.logError (basenameStr path)],
            1, [FsAction.write idx outputPath quality]⟩
      else
        ⟨[started, Event.logSuccess outputFilename],
          1, [FsAction.write idx outputPath quality]⟩
    else ⟨[started, Event.logError (basenameStr path)], 0, []⟩
  else ⟨[started, Event.logError (basenameStr path)], 0, []⟩

/-- The `for i, file_path in enumerate(self.file_list)` loop (lines 31–62):
at index `i` it first reads `is_running` (`running i`) and `break`s when it is
false; otherwise it runs the loop body and then emits the progress value
`int((i + 1) / total_files * 100)`. -/
def runLoop (outputDir : String) (quality : Nat) (deleteOriginal : Bool)
    (env : Nat → ItemEnv) (running : Nat → Bool) (total : Nat) :
    Nat → List String → LoopResult
  | _, [] => ⟨[], 0, []⟩
  | i, path :: rest =>
    if running i then
      let r := processItem outputDir quality deleteOriginal path i (env i)
      let tail := runLoop outputDir quality deleteOriginal env running total (i + 1) rest
      ⟨r.events ++ [Event.progress ((i + 1) * 100 / total)] ++ tail.events,
        r.inc + tail.succ, r.fs ++ tail.fs⟩
    else ⟨[], 0, []⟩

/-- Full outcome of `ConversionThread.run`. -/
structure RunResult where
  events : List Event
  successful : Nat
  fs : List FsAction
deriving DecidableEq

/-- `ConversionThread.run` (lines 26–65): the loop, then
`finished_signal.emit(True)` followed by the summary log message.  In the
model no operation outside the per-item `try` can raise, so the outer
`except` branch (lines 67–69, `finished_signal.emit(False)`) is unreachable
and the emitted flag is always `True`. -/
def run (files : List String) (outputDir : String) (quality : Nat)
    (deleteOriginal : Bool) (env : Nat → ItemEnv) (running : Nat → Bool) : RunResult :=
  let total := files.length
  let lo := runLoop outputDir quality deleteOriginal env running total 0 files
  ⟨lo.events ++ [Event.finished true, Event.logSummary lo.succ total], lo.succ, lo.fs⟩

/-- The fields `ConversionThread.__init__` stores (lines 18–24).  The
constructor performs no validation. -/
structure ConversionThread where
  file_list : List String
  output_dir : String
  quality : Nat
  delete_original : Bool
deriving DecidableEq

/-- `ORFConverterApp.start_conversion` (lines 236–255): with an empty file
list it shows a warning and returns without constructing a thread; otherwise
it builds the thread, passing the chosen output folder or, when none was
chosen, `os.path.dirname(self.file_list[0])`. -/
def startConversion (fileList : List String) (outputFolder : Option String)
    (quality : Nat) (deleteOriginal : Bool) : Option ConversionThread :=
  match fileList with
  | [] => none
  | f :: _ =>
    let outputDir :=
      match outputFolder with
      | some d => d
      | none => dirnameStr f
    some ⟨fileList, outputDir, quality, deleteOriginal⟩

/-- Run a constructed thread. -/
def runThread (t : ConversionThread) (env : Nat → ItemEnv) (running : Nat → Bool) :
    RunResult :=
  run t.file_list t.output_dir t.quality t.delete_original env running

/-- Is this event one of the per-item terminal log messages (success `✅` or
error `❌`)? -/
def isTerminal : Event → Bool
  | Event.logSuccess _ => true
  | Event.logError _ => true
  | _ => false

/-- Is this event the per-item error log message? -/
def isError : Event → Bool
  | Event.logError _ => true
  | _ => false

/-- Is this event the per-item success log message? -/
def isSuccessLog : Event → Bool
  | Event.logSuccess _ => true
  | _ => false

/-- Is this event an emission of `finished_signal`? -/
def isFinishedSig : Event → Bool
  | Event.finished _ => true
  | _ => false

/-- Number of per-item terminal events in an event list. -/
def terminalCount (l : List Event) : Nat := (l.filter isTerminal).length

/-- Number of per-item error events in an event list. -/
def errorCount (l : List Event) : Nat := (l.filter isError).length

/-- Number of per-item success events in an event list. -/
def successCount (l : List Event) : Nat := (l.filter isSuccessLog).length

/-- Number of `finished_signal` emissions in an event list. -/
def finishedCount (l : List Event) : Nat := (l.filter isFinishedSig).length

/-- The emitted progress percentages, in order. -/
def progressValues (l : List Event) : List Nat :=
  l.filterMap fun e =>
    match e with
    | Event.progress n => some n
    | _ => none

/-- Boolean membership on lists of item indices. -/
def memNat (n : Nat) : List Nat → Bool
  | [] => false
  | m :: rest => (m == n) || memNat n rest

/-- Walk the action list keeping the set of indices already written; a delete
of index `i` is admissible only when item `i`'s output write precedes it. -/
def deletesAfterWriteGo (written : List Nat) : List FsAction → Bool
  | [] => true
  | FsAction.write i _ _ :: rest => deletesAfterWriteGo (i :: written) rest
  | FsAction.delete i _ :: rest => memNat i written && deletesAfterWriteGo written rest

/-- Every delete in the action list is preceded by the same item's write. -/
def deletesAfterWrite (l : List FsAction) : Bool := deletesAfterWriteGo [] l

/-- Replay the filesystem actions over a map from path to the index of the
item whose bytes the file currently holds (`none` = absent). -/
def applyFs : List FsAction → (String → Option Nat) → (String → Option Nat)
  | [], m => m
  | FsAction.write i p _ :: rest, m =>
      applyFs rest (fun s => if s = p then some i else m s)
  | FsAction.delete _ p :: rest, m =>
      applyFs rest (fun s => if s = p then none else m s)

/-- Every item's decode, save and delete succeed. -/
def allOk : Nat → ItemEnv := fun _ => ⟨true, true, true⟩

/-- Every item decodes and saves, but every delete fails. -/
def delFailEnv : Nat → ItemEnv := fun _ => ⟨true, true, false⟩

/-- Item 0's decode fails; every other item fully succeeds. -/
def envFail0 : Nat → ItemEnv := fun n =>
  if n = 0 then ⟨false, true, true⟩ else ⟨true, true, true⟩

theorem terminalCount_append (a b : List Event) :
    terminalCount (a ++ b) = terminalCount a + terminalCount b := by
  simp [terminalCount, List.filter_append]

theorem errorCount_append (a b : List Event) :
    errorCount (a ++ b) = errorCount a + errorCount b := by
  simp [errorCount, List.filter_append]

theorem finishedCount_append (a b : List Event) :
    finishedCount (a ++ b) = finishedCount a + finishedCount b := by
  simp [finishedCount, List.filter_append]

theorem progressValues_append (a b : List Event) :
    progressValues (a ++ b) = progressValues a ++ progressValues b := by
  simp [progressValues, List.filterMap_append]

theorem processItem_terminal (outputDir : String) (quality : Nat) (del : Bool)
    (path : String) (idx : Nat) (e : ItemEnv) :
    terminalCount (processItem outputDir quality del path idx e).events = 1 := by
  rcases e with ⟨dok, sok, kok⟩
  cases dok <;> cases sok <;> cases kok <;> cases del <;>
    simp [processItem, terminalCount, isTerminal]

theorem processItem_no_progress (outputDir : String) (quality : Nat) (del : Bool)
    (path : String) (idx : Nat) (e : ItemEnv) :
    progressValues (processItem outputDir quality del path idx e).events = [] := by
  rcases e with ⟨dok, sok, kok⟩
  cases dok <;> cases sok <;> cases kok <;> cases del <;>
    simp [processItem, progressValues]

theorem processItem_no_finished (outputDir : String) (quality : Nat) (del : Bool)
    (path : String) (idx : Nat) (e : ItemEnv) :
    finishedCount (processItem outputDir quality del path idx e).events = 0 := by
  rcases e with ⟨dok, sok, kok⟩
  cases dok <;> cases sok <;> cases kok <;> cases del <;>
    simp [processItem, finishedCount, isFinishedSig]

theorem processItem_failed (outputDir : String) (quality : Nat) (del : Bool)
    (path : String) (idx : Nat) (e : ItemEnv)
    (hf : e.decodeOk = false ∨ e.saveOk = false) :
    errorCount (processItem outputDir quality del path idx e).events = 1 ∧
      (processItem outputDir quality del path idx e).inc = 0 := by
  rcases e with ⟨dok, sok, kok⟩
  cases dok <;> cases sok <;> cases kok <;> cases del <;>
    simp_all [processItem, errorCount, isError]

theorem processItem_started (outputDir : String) (quality : Nat) (del : Bool)
    (path : String) (idx : Nat) (e : ItemEnv) :
    Event.logStarted (basenameStr path) ∈ (processItem outputDir quality del path idx e).events := by
  rcases e with ⟨dok, sok, kok⟩
  cases dok <;> cases sok <;> cases kok <;> cases del <;>
    simp [processItem]

theorem processItem_delete_mem (outputDir : String) (quality : Nat) (del : Bool)
    (path : String) (idx : Nat) (e : ItemEnv) (i : Nat) (p : String)
    (hmem : FsAction.delete i p ∈ (processItem outputDir quality del path idx e).fs) :
    i = idx ∧ p = path ∧ del = true ∧ e.decodeOk = true ∧ e.saveOk = true := by
  rcases e with ⟨dok, sok, kok⟩
  cases dok <;> cases sok <;> cases kok <;> cases del <;>
    simp_all [processItem]


theorem processItem_no_finished_mem (outputDir : String) (quality : Nat) (del : Bool)
    (path : String) (idx : Nat) (e : ItemEnv) :
    ∀ a ∈ (processItem outputDir quality del path idx e).events, ¬ (isFinishedSig a = true) := by
  rcases e with ⟨dok, sok, kok⟩
  cases dok <;> cases sok <;> cases kok <;> cases del <;>
    simp [processItem, isFinishedSig]

theorem runLoop_no_finished_mem (outputDir : String) (quality : Nat) (del : Bool)
    (env : Nat → ItemEnv) (running : Nat → Bool) (total : Nat) :
    ∀ (files : List String) (i : Nat),
      ∀ a ∈ (runLoop outputDir quality del env running total i files).events,
        ¬ (isFinishedSig a = true) := by
  intro files
  induction files with
  | nil => intro i a ha; simp [runLoop] at ha
  | cons p rest ih =>
    intro i a ha
    cases hrun : running i
    · simp only [runLoop, hrun] at ha
      simp at ha
    · simp only [runLoop, hrun, if_true] at ha
      simp only [List.append_assoc, List.mem_append, List.mem_singleton] at ha
      rcases ha with ha | ha
      · exact processItem_no_finished_mem outputDir quality del p i (env i) a ha
      · rcases ha with ha | ha
        · subst ha; simp [isFinishedSig]
        · exact ih (i + 1) a ha

theorem runLoop_terminal_true (outputDir : String) (quality : Nat) (del : Bool)
    (env : Nat → ItemEnv) (total : Nat) :
    ∀ (files : List String) (i : Nat),
      terminalCount (runLoop outputDir quality del env (fun _ => true) total i files).events
        = files.length := by
  intro files
  induction files with
  | nil => intro i; simp [runLoop, terminalCount]
  | cons p rest ih =>
    intro i
    have h1 : (List.filter isTerminal
        (processItem outputDir quality del p i (env i)).events).length = 1 :=
      processItem_terminal outputDir quality del p i (env i)
    have h2 : (List.filter isTerminal
        (runLoop outputDir quality del env (fun _ => true) total (i + 1) rest).events).length
        = rest.length := ih (i + 1)
    simp [runLoop, terminalCount, List.filter_append, h1, h2, isTerminal]
    omega

theorem runLoop_terminal_cutoff (outputDir : String) (quality : Nat) (del : Bool)
    (env : Nat → ItemEnv) (total k : Nat) :
    ∀ (files : List String) (i : Nat),
      terminalCount
          (runLoop outputDir quality del env (fun j => decide (j < k)) total i files).events
        = min (k - i) files.length := by
  intro files
  induction files with
  | nil => intro i; simp [runLoop, terminalCount]
  | cons p rest ih =>
    intro i
    by_cases hik : i < k
    · have h1 : (List.filter isTerminal
          (processItem outputDir quality del p i (env i)).events).length = 1 :=
        processItem_terminal outputDir quality del p i (env i)
      have h2 : (List.filter isTerminal
          (runLoop outputDir quality del env (fun j => decide (j < k)) total
            (i + 1) rest).events).length = min (k - (i + 1)) rest.length := ih (i + 1)
      simp [runLoop, hik, terminalCount, List.filter_append, h1, h2, isTerminal]
      omega
    · simp [runLoop, hik, terminalCount]
      omega

theorem runLoop_started_mem (outputDir : String) (quality : Nat) (del : Bool)
    (env : Nat → ItemEnv) (total : Nat) :
    ∀ (files : List String) (i j : Nat), j < files.length →
      Event.logStarted (basenameStr (files.getD j "")) ∈
        (runLoop outputDir quality del env (fun _ => true) total i files).events := by
  intro files
  induction files with
  | nil => intro i j h; simp at h
  | cons p rest ih =>
    intro i j h
    cases j with
    | zero =>
      have h1 := processItem_started outputDir quality del p i (env i)
      simp only [List.getD_cons_zero]
      simp [runLoop, List.mem_append]
      tauto
    | succ j' =>
      have hj : j' < rest.length := by simpa using h
      have h2 := ih (i + 1) j' hj
      simp only [List.getD_cons_succ]
      simp [runLoop, List.mem_append] at h2 ⊢
      tauto

theorem runLoop_prog_bounds (outputDir : String) (quality : Nat) (del : Bool)
    (env : Nat → ItemEnv) (running : Nat → Bool) (total : Nat) :
    ∀ (files : List String) (i : Nat), i + files.length ≤ total →
      (∀ v ∈ progressValues (runLoop outputDir quality del env running total i files).events,
        (i + 1) * 100 / total ≤ v ∧ v ≤ 100)
      ∧ List.Chain' (· ≤ ·)
          (progressValues (runLoop outputDir quality del env running total i files).events) := by
  intro files
  induction files with
  | nil => intro i h; simp [runLoop, progressValues]
  | cons p rest ih =>
    intro i h
    cases hrun : running i
    · simp [runLoop, hrun, progressValues]
    · have hpv : progressValues
          (runLoop outputDir quality del env running total i (p :: rest)).events
          = (i + 1) * 100 / total ::
            progressValues (runLoop outputDir quality del env running total (i + 1) rest).events := by
        simp only [runLoop, hrun, if_true]
        rw [progressValues_append, progressValues_append,
          processItem_no_progress outputDir quality del p i (env i)]
        simp [progressValues]
      have IH := ih (i + 1) (by simp at h; omega)
      have hstep : (i + 1) * 100 / total ≤ (i + 1 + 1) * 100 / total :=
        Nat.div_le_div_right (Nat.mul_le_mul_right 100 (by omega))
      have htot : 0 < total := by simp at h; omega
      have hle100 : (i + 1) * 100 / total ≤ 100 := by
        calc (i + 1) * 100 / total ≤ total * 100 / total :=
              Nat.div_le_div_right (Nat.mul_le_mul_right 100 (by simp at h; omega))
          _ = 100 := Nat.mul_div_cancel_left 100 htot
      rw [hpv]
      constructor
      · intro v hv
        rcases List.mem_cons.mp hv with hv | hv
        · subst hv; exact ⟨Nat.le_refl _, hle100⟩
        · have := IH.1 v hv
          exact ⟨Nat.le_trans hstep this.1, this.2⟩
      · refine List.chain'_cons'.mpr ⟨?_, IH.2⟩
        intro y hy
        have hmem := List.mem_of_mem_head? hy
        exact Nat.le_trans hstep (IH.1 y hmem).1

theorem runLoop_prog_last (outputDir : String) (quality : Nat) (del : Bool)
    (env : Nat → ItemEnv) (total : Nat) :
    ∀ (files : List String) (i : Nat), i + files.length = total → files ≠ [] →
      (progressValues
          (runLoop outputDir quality del env (fun _ => true) total i files).events).getLast?
        = some 100 := by
  intro files
  induction files with
  | nil => intro i h hne; exact absurd rfl hne
  | cons p rest ih =>
    intro i h hne
    have hpv : progressValues
        (runLoop outputDir quality del env (fun _ => true) total i (p :: rest)).events
        = (i + 1) * 100 / total ::
          progressValues (runLoop outputDir quality del env (fun _ => true) total (i + 1) rest).events := by
      simp only [runLoop, if_true]
      rw [progressValues_append, progressValues_append,
        processItem_no_progress outputDir quality del p i (env i)]
      simp [progressValues]
    rw [hpv]
    cases rest with
    | nil =>
      have hi : i + 1 = total := by simpa using h
      have htot : 0 < total := by omega
      have : (i + 1) * 100 / total = 100 := by
        rw [hi]; exact Nat.mul_div_cancel_left 100 htot
      simp [runLoop, progressValues, this]
    | cons p2 rest2 =>
      have IH := ih (i + 1) (by simp at h ⊢; omega) (by simp)
      rcases hpv2 : progressValues
          (runLoop outputDir quality del env (fun _ => true) total (i + 1) (p2 :: rest2)).events with
        _ | ⟨b, bs⟩
      · rw [hpv2] at IH; simp at IH
      · rw [hpv2] at IH
        rw [List.getLast?_cons_cons]
        exact IH

theorem memNat_self (n : Nat) (l : List Nat) : memNat n (n :: l) = true := by
  simp [memNat]

theorem runLoop_deletes_after_write (outputDir : String) (quality : Nat) (del : Bool)
    (env : Nat → ItemEnv) (running : Nat → Bool) (total : Nat) :
    ∀ (files : List String) (i : Nat) (w : List Nat),
      deletesAfterWriteGo w (runLoop outputDir quality del env running total i files).fs = true := by
  intro files
  induction files with
  | nil => intro i w; simp [runLoop, deletesAfterWriteGo]
  | cons p rest ih =>
    intro i w
    cases hrun : running i
    · simp [runLoop, hrun, deletesAfterWriteGo]
    · rcases he : env i with ⟨dok, sok, kok⟩
      cases dok <;> cases sok <;> cases kok <;> cases del <;>
        simp_all [runLoop, processItem, deletesAfterWriteGo, memNat, ih]

theorem runLoop_delete_mem (outputDir : String) (quality : Nat) (del : Bool)
    (env : Nat → ItemEnv) (running : Nat → Bool) (total : Nat) :
    ∀ (files : List String) (istart : Nat) (i : Nat) (p : String),
      FsAction.delete i p ∈ (runLoop outputDir quality del env running total istart files).fs →
      del = true ∧ (env i).decodeOk = true ∧ (env i).saveOk = true := by
  intro files
  induction files with
  | nil => intro istart i p hmem; simp [runLoop] at hmem
  | cons q rest ih =>
    intro istart i p hmem
    cases hrun : running istart
    · simp only [runLoop, hrun] at hmem
      simp at hmem
    · simp only [runLoop, hrun, if_true] at hmem
      rw [List.mem_append] at hmem
      rcases hmem with hmem | hmem
      · have hprop := processItem_delete_mem outputDir quality del q istart (env istart) i p hmem
        rcases hprop with ⟨hi, hp, hdel, hd, hs⟩
        subst hi
        exact ⟨hdel, hd, hs⟩
      · exact ih (istart + 1) i p hmem

theorem run_eq (files : List String) (outputDir : String) (quality : Nat) (del : Bool)
    (env : Nat → ItemEnv) (running : Nat → Bool) :
    run files outputDir quality del env running
      = ⟨(runLoop outputDir quality del env running files.length 0 files).events
          ++ [Event.finished true,
              Event.logSummary
                (runLoop outputDir quality del env running files.length 0 files).succ
                files.length],
         (runLoop outputDir quality del env running files.length 0 files).succ,
         (runLoop outputDir quality del env running files.length 0 files).fs⟩ := rfl

/-- Claim C1 (counterexample): with one item and cancellation requested before
item 1 starts, the run emits zero per-item terminal events, not
`items.length = 1` — the loop `break`s without emitting any `Skipped`
event. -/
theorem claimC1_counterexample :
    terminalCount (run ["a.orf"] "out" 90 false allOk (fun _ => false)).events = 0
    ∧ terminalCount (run ["a.orf"] "out" 90 false allOk (fun _ => false)).events
        ≠ (["a.orf"] : List String).length := by decide

/-- Claim C1 (amended): if cancellation is observed from item `k` on, items
`1..k-1` yield their natural terminal event and the loop stops: items `k..N`
yield no per-item events at all, so the number of per-item terminal events is
`min k N`, not `N`. -/
theorem claimC1_amended (files : List String) (outputDir : String) (quality : Nat)
    (del : Bool) (env : Nat → ItemEnv) (k : Nat) :
    terminalCount (run files outputDir quality del env (fun i => decide (i < k))).events
      = min k files.length := by
  have h := runLoop_terminal_cutoff outputDir quality del env files.length k files 0
  have h2 : (List.filter isTerminal
      [Event.finished true,
       Event.logSummary
         (runLoop outputDir quality del env (fun i => decide (i < k))
           files.length 0 files).succ files.length]).length = 0 := by
    simp [isTerminal]
  simp only [run_eq]
  rw [terminalCount_append]
  rw [show terminalCount [Event.finished true,
      Event.logSummary
        (runLoop outputDir quality del env (fun i => decide (i < k))
          files.length 0 files).succ files.length] = 0 from h2]
  rw [show terminalCount
      (runLoop outputDir quality del env (fun i => decide (i < k))
        files.length 0 files).events = min (k - 0) files.length from h]
  omega

/-- Claim C2 (code bug): with no fixed output directory chosen and sources in
two different folders, `start_conversion` passes
`os.path.dirname(self.file_list[0])` (= `"/a"`) as the single output
directory, so the second item's output is written to `"/a/y.jpg"` instead of
beside its own source in `"/b"`. -/
theorem claimC2_bug :
    startConversion ["/a/x.orf", "/b/y.orf"] none 90 false
      = some (ConversionThread.mk ["/a/x.orf", "/b/y.orf"] "/a" 90 false)
    ∧ dirnameStr "/b/y.orf" = "/b"
    ∧ (runThread (ConversionThread.mk ["/a/x.orf", "/b/y.orf"] "/a" 90 false) allOk
        (fun _ => true)).fs
      = [FsAction.write 0 "/a/x.jpg" 90, FsAction.write 1 "/a/y.jpg" 90] := by decide

/-- Claim C3 (counterexample): `finished_signal` is emitted, but it is not the
last event of the run — the summary log message follows it (line 65 runs
after line 64). -/
theorem claimC3_counterexample :
    Event.finished true ∈ (run ["a.orf"] "out" 90 false allOk (fun _ => true)).events
    ∧ (run ["a.orf"] "out" 90 false allOk (fun _ => true)).events.getLast?
        ≠ some (Event.finished true) := by decide

/-- Claim C3 (amended): `finished_signal` is emitted exactly once, after every
per-item event; exactly one event follows it, the final summary log message,
which is the last event of the run. -/
theorem claimC3_amended (files : List String) (outputDir : String) (quality : Nat)
    (del : Bool) (env : Nat → ItemEnv) (running : Nat → Bool) :
    finishedCount (run files outputDir quality del env running).events = 1
    ∧ (run files outputDir quality del env running).events.getLast?
        = some (Event.logSummary (run files outputDir quality del env running).successful
            files.length)
    ∧ ∃ pre, (run files outputDir quality del env running).events
        = pre ++ [Event.finished true,
            Event.logSummary (run files outputDir quality del env running).successful
              files.length]
        ∧ finishedCount pre = 0 := by
  have hnil : List.filter isFinishedSig
      (runLoop outputDir quality del env running files.length 0 files).events = [] :=
    List.filter_eq_nil_iff.mpr
      (runLoop_no_finished_mem outputDir quality del env running files.length files 0)
  simp only [run_eq]
  refine ⟨?_, ?_, ?_⟩
  · rw [finishedCount_append]
    rw [show finishedCount
        (runLoop outputDir quality del env running files.length 0 files).events = 0 by
      simp [finishedCount, hnil]]
    simp [finishedCount, isFinishedSig]
  · rw [show (runLoop outputDir quality del env running files.length 0 files).events
        ++ [Event.finished true,
            Event.logSummary
              (runLoop outputDir quality del env running files.length 0 files).succ
              files.length]
      = ((runLoop outputDir quality del env running files.length 0 files).events
          ++ [Event.finished true])
        ++ [Event.logSummary
              (runLoop outputDir quality del env running files.length 0 files).succ
              files.length] by simp]
    rw [List.getLast?_concat]
  · refine ⟨(runLoop outputDir quality del env running files.length 0 files).events,
      rfl, ?_⟩
    simp [finishedCount, hnil]

/-- Claim C4 (confirmed): a decode or save (encode/write) failure on item `i`
yields exactly one error terminal event for item `i` and does not increment
`successful`; the next item still emits its started event, every item still
reaches a terminal event, and the run still ends with `finished_signal` and
the summary — the exception is absorbed by the per-item `except` handler. -/
theorem claimC4 (files : List String) (outputDir : String) (quality : Nat) (del : Bool)
    (env : Nat → ItemEnv) (i : Nat) (_hi : i < files.length)
    (hf : (env i).decodeOk = false ∨ (env i).saveOk = false) :
    errorCount (processItem outputDir quality del (files.getD i "") i (env i)).events = 1
    ∧ (processItem outputDir quality del (files.getD i "") i (env i)).inc = 0
    ∧ (i + 1 < files.length →
        Event.logStarted (basenameStr (files.getD (i + 1) ""))
          ∈ (run files outputDir quality del env (fun _ => true)).events)
    ∧ terminalCount (run files outputDir quality del env (fun _ => true)).events
        = files.length
    ∧ ∃ pre, (run files outputDir quality del env (fun _ => true)).events
        = pre ++ [Event.finished true,
            Event.logSummary (run files outputDir quality del env (fun _ => true)).successful
              files.length] := by
  obtain ⟨h1, h2⟩ := processItem_failed outputDir quality del (files.getD i "") i (env i) hf
  refine ⟨h1, h2, ?_, ?_, ?_⟩
  · intro hlt
    simp only [run_eq]
    exact List.mem_append.mpr
      (Or.inl (runLoop_started_mem outputDir quality del env files.length files 0 (i + 1) hlt))
  · simp only [run_eq]
    rw [terminalCount_append]
    rw [show terminalCount
        (runLoop outputDir quality del env (fun _ => true) files.length 0 files).events
        = files.length from runLoop_terminal_true outputDir quality del env files.length files 0]
    simp [terminalCount, isTerminal]
  · exact ⟨(runLoop outputDir quality del env (fun _ => true) files.length 0 files).events, rfl⟩

/-- Claim C4 (witness): a two-item run whose first item fails to decode: the
failure hypothesis holds and the second item's started event is emitted. -/
theorem claimC4_witness :
    ((envFail0 0).decodeOk = false ∨ (envFail0 0).saveOk = false)
    ∧ Event.logStarted (basenameStr ((["a.orf", "b.orf"] : List String).getD 1 ""))
        ∈ (run ["a.orf", "b.orf"] "out" 90 false envFail0 (fun _ => true)).events :=
  ⟨Or.inl (by decide),
    (claimC4 ["a.orf", "b.orf"] "out" 90 false envFail0 0 (by decide)
      (Or.inl (by decide))).2.2.1 (by decide)⟩

/-- Claim C5 (counterexample): a two-item run cancelled before item 2: the
progress sequence is `[50]`, so its final value is 50, not 100, and only one
of the two items reaches a terminal state. -/
theorem claimC5_counterexample :
    progressValues
        (run ["a.orf", "b.orf"] "out" 90 false allOk (fun i => decide (i < 1))).events = [50]
    ∧ (50 : Nat) ≠ 100
    ∧ terminalCount
        (run ["a.orf", "b.orf"] "out" 90 false allOk (fun i => decide (i < 1))).events = 1 := by
  decide

/-- Claim C5 (amended): the emitted progress sequence is always monotonically
non-decreasing with every value at most 100; when cancellation is never
observed the final progress value is exactly 100 and all `N` items reach a
terminal state.  In a cancelled run the progress sequence is cut short and
its last value stays below 100 (see the counterexample). -/
theorem claimC5_amended (files : List String) (outputDir : String) (quality : Nat)
    (del : Bool) (env : Nat → ItemEnv) (running : Nat → Bool) (hne : files ≠ []) :
    List.Chain' (· ≤ ·) (progressValues (run files outputDir quality del env running).events)
    ∧ (progressValues (run files outputDir quality del env running).events).all
        (fun v => decide (v ≤ 100)) = true
    ∧ (progressValues (run files outputDir quality del env (fun _ => true)).events).getLast?
        = some 100
    ∧ terminalCount (run files outputDir quality del env (fun _ => true)).events
        = files.length := by
  have hlen : 0 + files.length ≤ files.length := by omega
  have hbounds := runLoop_prog_bounds outputDir quality del env running files.length files 0 hlen
  have hpv : progressValues (run files outputDir quality del env running).events
      = progressValues
          (runLoop outputDir quality del env running files.length 0 files).events := by
    simp only [run_eq]
    rw [progressValues_append]
    simp [progressValues]
  have hpvT : progressValues (run files outputDir quality del env (fun _ => true)).events
      = progressValues
          (runLoop outputDir quality del env (fun _ => true) files.length 0 files).events := by
    simp only [run_eq]
    rw [progressValues_append]
    simp [progressValues]
  refine ⟨?_, ?_, ?_, ?_⟩
  · rw [hpv]; exact hbounds.2
  · rw [hpv, List.all_eq_true]
    intro v hv
    simpa using (hbounds.1 v hv).2
  · rw [hpvT]
    exact runLoop_prog_last outputDir quality del env files.length files 0 (by omega) hne
  · simp only [run_eq]
    rw [terminalCount_append]
    rw [show terminalCount
        (runLoop outputDir quality del env (fun _ => true) files.length 0 files).events
        = files.length from runLoop_terminal_true outputDir quality del env files.length files 0]
    simp [terminalCount, isTerminal]

/-- Claim C5 (witness): a one-item run without cancellation: the non-emptiness
hypothesis holds and the final progress value is exactly 100. -/
theorem claimC5_witness :
    (["a.orf"] : List String) ≠ []
    ∧ (progressValues (run ["a.orf"] "out" 90 false allOk (fun _ => true)).events).getLast?
        = some 100 :=
  ⟨by decide,
    (claimC5_amended ["a.orf"] "out" 90 false allOk (fun _ => true) (by decide)).2.2.1⟩

/-- Claim C6 (counterexample): `ConversionThread.__init__` performs no
validation and `start_conversion` only checks for an empty list, so a
conversion with quality 0 or 101 is constructed and started without any
`InvalidArgument` failure. -/
theorem claimC6_counterexample :
    (startConversion ["x.orf"] (some "out") 0 false).isSome = true
    ∧ (startConversion ["x.orf"] (some "out") 101 false).isSome = true := by decide

/-- Claim C6 (amended): starting a conversion with an empty item list is
rejected before any run starts (no thread is constructed, hence zero events);
quality is never validated at construction — any value, including 0 and 101,
is accepted (the UI spinbox is what confines quality to 1..100). -/
theorem claimC6_amended (o : Option String) (q : Nat) (del : Bool)
    (fileList : List String) (hne : fileList ≠ []) :
    startConversion [] o q del = none
    ∧ (startConversion fileList o q del).isSome = true := by
  constructor
  · rfl
  · cases fileList with
    | nil => exact absurd rfl hne
    | cons f rest => simp [startConversion]

/-- Claim C6 (witness): a one-item list is non-empty and its conversion
starts. -/
theorem claimC6_witness :
    (["x.orf"] : List String) ≠ []
    ∧ (startConversion ["x.orf"] (some "out") 95 false).isSome = true :=
  ⟨by decide, (claimC6_amended (some "out") 95 false ["x.orf"] (by decide)).2⟩

/-- Claim C7 (confirmed): a source file is deleted only when
`delete_original` is set and that item's decode and save both succeeded, and
every delete in the action sequence is preceded by the same item's output
write; hence with `delete_original = false` no delete ever occurs. -/
theorem claimC7 (files : List String) (outputDir : String) (quality : Nat) (del : Bool)
    (env : Nat → ItemEnv) (running : Nat → Bool) (i : Nat) (p : String)
    (hmem : FsAction.delete i p ∈ (run files outputDir quality del env running).fs) :
    del = true ∧ (env i).decodeOk = true ∧ (env i).saveOk = true
    ∧ deletesAfterWrite (run files outputDir quality del env running).fs = true := by
  have hfs : (run files outputDir quality del env running).fs
      = (runLoop outputDir quality del env running files.length 0 files).fs := rfl
  rw [hfs] at hmem
  obtain ⟨h1, h2, h3⟩ :=
    runLoop_delete_mem outputDir quality del env running files.length files 0 i p hmem
  refine ⟨h1, h2, h3, ?_⟩
  rw [hfs]
  exact runLoop_deletes_after_write outputDir quality del env running files.length files 0 []

/-- Claim C7 (witness): a one-item run with `delete_original = true` where
everything succeeds: the delete of the source occurs and it is preceded by
the item's output write. -/
theorem claimC7_witness :
    FsAction.delete 0 "/a/x.orf"
      ∈ (run ["/a/x.orf"] "/out" 90 true allOk (fun _ => true)).fs
    ∧ deletesAfterWrite (run ["/a/x.orf"] "/out" 90 true allOk (fun _ => true)).fs = true :=
  ⟨by decide,
    (claimC7 ["/a/x.orf"] "/out" 90 true allOk (fun _ => true) 0 "/a/x.orf" (by decide)).2.2.2⟩

/-- Claim C8 (counterexample): one item whose write succeeds but whose delete
fails: `successful` is still incremented to 1, yet no success event is
emitted — the error log replaces it, so the item's visible terminal event is
a failure, contradicting "still reaches the Succeeded terminal state … never
flipped to a failure". -/
theorem claimC8_counterexample :
    (run ["x.orf"] "out" 90 true delFailEnv (fun _ => true)).successful = 1
    ∧ successCount (run ["x.orf"] "out" 90 true delFailEnv (fun _ => true)).events = 0
    ∧ errorCount (run ["x.orf"] "out" 90 true delFailEnv (fun _ => true)).events = 1 := by
  decide

/-- Claim C8 (amended): when the write succeeded and the delete fails, the
item is still counted in the run's success count (the increment happened
before `os.remove`), but the emitted per-item terminal event is the error log
message — the success log is never emitted for that item; the output file
itself remains written. -/
theorem claimC8_amended (outputDir : String) (quality : Nat) (p : String)
    (env : Nat → ItemEnv) (h1 : (env 0).decodeOk = true) (h2 : (env 0).saveOk = true)
    (h3 : (env 0).deleteOk = false) :
    (run [p] outputDir quality true env (fun _ => true)).successful = 1
    ∧ (run [p] outputDir quality true env (fun _ => true)).events
        = [Event.logStarted (basenameStr p), Event.logError (basenameStr p),
           Event.progress 100, Event.finished true, Event.logSummary 1 1]
    ∧ (run [p] outputDir quality true env (fun _ => true)).fs
        = [FsAction.write 0 (joinPath outputDir (stemStr p ++ ".jpg")) quality] := by
  refine ⟨?_, ?_, ?_⟩ <;>
    simp [run, runLoop, processItem, h1, h2, h3]

/-- Claim C8 (witness): the delete-fails environment satisfies the three
hypotheses and the run's success count is 1. -/
theorem claimC8_witness :
    (delFailEnv 0).decodeOk = true ∧ (delFailEnv 0).saveOk = true
    ∧ (delFailEnv 0).deleteOk = false
    ∧ (run ["x.orf"] "out" 90 true delFailEnv (fun _ => true)).successful = 1 :=
  ⟨by decide, by decide, by decide,
    (claimC8_amended "out" 90 "x.orf" delFailEnv (by decide) (by decide) (by decide)).1⟩

/-- Claim C9 (confirmed): each item's output path is
`join(output_dir, stem + ".jpg")`; two sources with equal stems produce two
writes to the same output path (no deduplication) and, replaying the
filesystem actions, the file finally holds the second item's bytes — the
later write silently overwrites the earlier one. -/
theorem claimC9 (outputDir : String) (quality : Nat) (p1 p2 : String)
    (h : stemStr p1 = stemStr p2) :
    (run [p1, p2] outputDir quality false allOk (fun _ => true)).fs
      = [FsAction.write 0 (joinPath outputDir (stemStr p1 ++ ".jpg")) quality,
         FsAction.write 1 (joinPath outputDir (stemStr p1 ++ ".jpg")) quality]
    ∧ applyFs (run [p1, p2] outputDir quality false allOk (fun _ => true)).fs
        (fun _ => none) (joinPath outputDir (stemStr p1 ++ ".jpg")) = some 1 := by
  have hfs : (run [p1, p2] outputDir quality false allOk (fun _ => true)).fs
      = [FsAction.write 0 (joinPath outputDir (stemStr p1 ++ ".jpg")) quality,
         FsAction.write 1 (joinPath outputDir (stemStr p1 ++ ".jpg")) quality] := by
    simp [run, runLoop, processItem, allOk, ← h]
  refine ⟨hfs, ?_⟩
  rw [hfs]
  simp [applyFs]

/-- Claim C9 (witness): two sources in different folders share the stem `x`;
after the run the common output path holds item 1's bytes. -/
theorem claimC9_witness :
    stemStr "/a/x.orf" = stemStr "/b/x.orf"
    ∧ applyFs (run ["/a/x.orf", "/b/x.orf"] "/out" 90 false allOk (fun _ => true)).fs
        (fun _ => none) (joinPath "/out" (stemStr "/a/x.orf" ++ ".jpg")) = some 1 :=
  ⟨by decide, (claimC9 "/out" 90 "/a/x.orf" "/b/x.orf" (by decide)).2⟩

/-- Claim C10 (confirmed): a run on an empty file list terminates normally
with exactly the two final events — `finished_signal(True)` and the summary —
no progress event and no per-item event; the division by `total_files` sits
inside the loop body, which is never entered, so no division by zero is ever
evaluated. -/
theorem claimC10 (outputDir : String) (quality : Nat) (del : Bool)
    (env : Nat → ItemEnv) (running : Nat → Bool) :
    run [] outputDir quality del env running
      = ⟨[Event.finished true, Event.logSummary 0 0], 0, []⟩
    ∧ progressValues (run [] outputDir quality del env running).events = []
    ∧ finishedCount (run [] outputDir quality del env running).events = 1 :=
  ⟨rfl, rfl, rfl⟩
